import Mathlib

/-!
Shallow embedding of the Genos autograder core (crates genos and
grader_systems), translated from the Rust sources.  Machine integers are
modelled as Nat/Int; fallible code returns Except/Option; filesystem and
process effects are passed in as explicit parameters.
-/

set_option maxRecDepth 4000
set_option linter.dupNamespace false

namespace Genos

/-! ### Points and PointQuantity (src/genos/src/points.rs)

Points is stored as a non-negative integer of hundredths (Rust u64); the
float validation front end is irrelevant to the claims, so a value of type
Points is directly the hundredths integer. -/

abbrev Points := Nat

/-- src: points.rs, PointQuantity. -/
inductive PointQuantity where
  | FullPoints : PointQuantity
  | Partial : Points → PointQuantity
  deriving DecidableEq, Repr

/-- src: points.rs, PointQuantity::zero. -/
def PointQuantity.zero : PointQuantity := .Partial 0

/-- src: points.rs, PointQuantity::is_full_points. -/
def PointQuantity.is_full_points : PointQuantity → Bool
  | .FullPoints => true
  | _ => false

/-- src: points.rs, impl Add for PointQuantity (FullPoints absorbs). -/
def PointQuantity.add : PointQuantity → PointQuantity → PointQuantity
  | _, .FullPoints => .FullPoints
  | .FullPoints, .Partial _ => .FullPoints
  | .Partial a, .Partial b => .Partial (a + b)

/-! ### Score (src/genos/src/score.rs) -/

/-- src: score.rs, Score. -/
structure Score where
  received : Points
  possible : Points
  deriving DecidableEq, Repr

/-- src: score.rs, Score::empty / Default. -/
def Score.empty : Score := ⟨0, 0⟩

/-- src: score.rs, Score::zero_points. -/
def Score.zero_points (max : Points) : Score := ⟨0, max⟩

/-- src: score.rs, Score::full_points. -/
def Score.full_points (max : Points) : Score := ⟨max, max⟩

/-- src: score.rs, Score::points_lost (u64 subtraction; callers uphold
received ≤ possible, where Nat and u64 subtraction agree). -/
def Score.points_lost (s : Score) : Points := s.possible - s.received

/-- src: score.rs, Score::received_full_points. -/
def Score.received_full_points (s : Score) : Bool := s.possible == s.received

/-- src: score.rs, impl Add for Score (componentwise). -/
def Score.add (a b : Score) : Score := ⟨a.received + b.received, a.possible + b.possible⟩

/-! ### Output model (src/genos/src/output.rs) -/

/-- src: output.rs, RichText (the Arc sharing is irrelevant here). -/
structure RichText where
  text : String
  code : Bool
  deriving DecidableEq, Repr

/-- src: output.rs, Status. -/
inductive Status where
  | Pass : Status
  | Fail : (points_lost : PointQuantity) → Status
  deriving DecidableEq, Repr

mutual
/-- src: output.rs, Content.  A Section is inlined as its header plus
content list (src Section is exactly that pair). -/
inductive Content where
  | SubSection : (header : String) → (content : List Content) → Content
  | Block : RichText → Content
  | StatusList : (updates : List Update) → Content
  | Multiline : (content : List Content) → Content
  deriving Repr

/-- src: output.rs, Update. -/
inductive Update where
  | mk : (description : String) → (status : Status) → (notes : Option Content) → Update
  deriving Repr
end

def Update.description : Update → String
  | .mk d _ _ => d

def Update.status : Update → Status
  | .mk _ s _ => s

def Update.notes : Update → Option Content
  | .mk _ _ n => n

/-- src: output.rs, Update::new_pass. -/
def Update.new_pass (description : String) : Update := .mk description .Pass none

/-- src: output.rs, Update::new_fail. -/
def Update.new_fail (description : String) (points_lost : PointQuantity) : Update :=
  .mk description (.Fail points_lost) none

/-- src: output.rs, Section (header plus ordered content). -/
structure Section where
  header : String
  content : List Content
  deriving Repr

/-- src: output.rs, Output (a sequence of sections). -/
structure Output where
  sections : List Section
  deriving Repr

/-- src: output.rs, Output::new / Default. -/
def Output.new : Output := ⟨[]⟩

/-- src: output.rs, Output::append (concatenates section lists). -/
def Output.append (a b : Output) : Output := ⟨a.sections ++ b.sections⟩

/-- src: output.rs, Output::section builder step. -/
def Output.section (o : Output) (s : Section) : Output := ⟨o.sections ++ [s]⟩

/-- Rust str::contains — substring containment, on char lists. -/
def strContainsL : List Char → List Char → Bool
  | [], needle => needle.isEmpty
  | c :: rest, needle => needle.isPrefixOf (c :: rest) || strContainsL rest needle

mutual
/-- src: output.rs, impl Contains for Content. -/
def Content.containsB (s : List Char) : Content → Bool
  | .SubSection h c => strContainsL h.toList s || contentListContainsB s c
  | .Block t => strContainsL t.text.toList s
  | .StatusList us => updateListContainsB s us
  | .Multiline c => contentListContainsB s c

def contentListContainsB (s : List Char) : List Content → Bool
  | [] => false
  | c :: rest => Content.containsB s c || contentListContainsB s rest

/-- src: output.rs, impl Contains for Update. -/
def Update.containsB (s : List Char) : Update → Bool
  | .mk d _ notes =>
    strContainsL d.toList s ||
      (match notes with
       | none => false
       | some c => Content.containsB s c)

def updateListContainsB (s : List Char) : List Update → Bool
  | [] => false
  | u :: rest => Update.containsB s u || updateListContainsB s rest
end

/-- src: output.rs, impl Contains for Section. -/
def Section.containsB (sec : Section) (s : String) : Bool :=
  strContainsL sec.header.toList s.toList || contentListContainsB s.toList sec.content

/-- src: output.rs, impl Contains for Output. -/
def Output.containsB (o : Output) (s : String) : Bool :=
  o.sections.any (fun sec => sec.containsB s)

/-! ### TestResult (src/genos/src/test.rs) -/

/-- src: test.rs, TestStatus. -/
inductive TestStatus where
  | Pass : Score → TestStatus
  | Fail : Score → TestStatus
  deriving DecidableEq, Repr

/-- The Score carried by a TestStatus. -/
def TestStatus.score : TestStatus → Score
  | .Pass s => s
  | .Fail s => s

def TestStatus.isPass : TestStatus → Bool
  | .Pass _ => true
  | .Fail _ => false

/-- src: test.rs, TestResult. -/
structure TestResult where
  status : TestStatus
  output : Output
  deriving Repr

/-- Modelled from the spec: genos.rs calls a one-argument constructor
TestResult::new(points) that is absent from the src snapshot (the test.rs
present takes (status, output)).  Per spec section 4.2, a TestResult starts
as Pass(full(max_points)) with empty output. -/
def TestResult.new (points : Points) : TestResult :=
  ⟨.Pass (Score.full_points points), Output.new⟩

/-- Modelled from the spec: genos.rs calls TestResult::lose_full_points,
absent from the src snapshot.  Per spec section 7 (and the expectations in
genos.rs's unit tests) it zeroes the score: status becomes
Fail(zero-points(possible)), output is untouched. -/
def TestResult.lose_full_points (r : TestResult) : TestResult :=
  { r with status := .Fail (Score.zero_points r.status.score.possible) }

/-! ### Orchestrator (src/genos/src/genos.rs)

A test request (Arc of dyn TestRequest) is modelled by its max points and
the outcome of running it: either a TestResult or a system error.  System
errors are identified by a Nat token so that "the first system error" is
an observable value.  The directory-creation failure of run_test is one of
the error outcomes of the behavior. -/

structure TestCase where
  points : Points
  behavior : Except Nat TestResult

/-- src: genos.rs, RunResult (the test handle itself is dropped; only the
result and error are observed by writers and by run). -/
structure RunResult where
  res : TestResult
  err : Option Nat

/-- src: genos.rs, run_test_and_process_result: an Ok result is passed
through; a system error is converted to a zero-score result whose output
gains a "System Error Occurred" section, with the error kept alongside. -/
def run_test_and_process_result (t : TestCase) : RunResult :=
  match t.behavior with
  | .ok res => ⟨res, none⟩
  | .error e =>
    let res := (TestResult.new t.points).lose_full_points
    let res := { res with
      output := res.output.append
        (Output.new.section
          ⟨"System Error Occurred", [.Block ⟨"Please report this to course staff", false⟩]⟩) }
    ⟨res, some e⟩

/-- src: genos.rs, Genos::run_all_tests: setup tests run sequentially and
push their results; on the first setup system error the collected results
are returned at once (no later setup, no regular test).  Otherwise all
regular tests run and their results are appended in input order. -/
def run_all_tests : List TestCase → List TestCase → List RunResult
  | [], tests => tests.map run_test_and_process_result
  | setup_test :: rest, tests =>
    let r := run_test_and_process_result setup_test
    if r.err.isSome then [r] else r :: run_all_tests rest tests

/-- src: genos.rs, one step of the fold inside Genos::run. -/
def foldStep (acc : Except Nat (List TestResult)) (curr : RunResult) :
    Except Nat (List TestResult) :=
  match acc with
  | .ok results =>
    match curr.err with
    | some e => .error e
    | none => .ok (results ++ [curr.res])
  | .error e => .error e

/-- src: genos.rs, the fold inside Genos::run: first system error found in
order wins, otherwise the ordered vector of TestResults. -/
def foldRunResults (results : List RunResult) : Except Nat (List TestResult) :=
  results.foldl foldStep (.ok [])

/-- What one call of Genos::run observably does: write_results hands the
run_all_tests vector to every writer, then the fold produces the return
value. -/
structure GenosRunTrace where
  writersReceived : List RunResult
  returned : Except Nat (List TestResult)

/-- src: genos.rs, Genos::run. -/
def Genos.run (setup tests : List TestCase) : GenosRunTrace :=
  let res := run_all_tests setup tests
  ⟨res, foldRunResults res⟩

/-! ### Stage contract (src/genos/src/stage.rs) -/

/-- src: stage.rs, StageStatus. -/
inductive StageStatus where
  | Continue : (points_lost : PointQuantity) → StageStatus
  | UnrecoverableFailure : StageStatus
  deriving DecidableEq, Repr

/-- src: stage.rs, StageResult. -/
structure StageResult where
  status : StageStatus
  output : Option Output
  deriving Repr

/-- src: stage.rs, StageResult::new_continue. -/
def StageResult.new_continue (points_lost : PointQuantity) : StageResult :=
  ⟨.Continue points_lost, none⟩

/-- src: stage.rs, StageResult::with_output. -/
def StageResult.with_output (r : StageResult) (o : Output) : StageResult :=
  { r with output := some o }

/-! ### Per-test runner (src/genos/src/test.rs)

The test.rs in the snapshot is from a different revision than stage.rs: it
matches StageStatus::Continue(StagePoints) where StagePoints is either a
per-stage Partial score or an Absolute pass/fail.  That revision's types
live in this namespace. -/

namespace TestRs

/-- src: test.rs usage, StagePoints (per-stage score or pass/fail). -/
inductive StagePoints where
  | Partial : Score → StagePoints
  | Absolute : (passed : Bool) → StagePoints
  deriving DecidableEq, Repr

/-- src: test.rs usage, StageStatus of that revision. -/
inductive StageStatus where
  | Continue : StagePoints → StageStatus
  | UnrecoverableFailure : StageStatus
  deriving DecidableEq, Repr

/-- src: test.rs usage, StageResult of that revision. -/
structure StageResult where
  status : StageStatus
  output : Option Output
  deriving Repr

/-- src: test.rs, ResultBuilder. -/
structure ResultBuilder where
  output : Output := Output.new
  partial_points_processed : Points := 0
  points_possible : Points
  score : Score := Score.empty
  test_failed : Bool := false

/-- src: test.rs, ResultBuilder::new. -/
def ResultBuilder.new (points_possible : Points) : ResultBuilder :=
  { points_possible := points_possible }

/-- src: test.rs, ResultBuilder::record_result. -/
def ResultBuilder.record_result (b : ResultBuilder) (res : StageResult) : ResultBuilder :=
  let b := { b with output := b.output.append (res.output.getD Output.new) }
  match res.status with
  | .Continue (.Partial score) =>
    { b with
      score := b.score.add score
      partial_points_processed := b.partial_points_processed + score.possible }
  | .Continue (.Absolute passed) => { b with test_failed := b.test_failed || !passed }
  | .UnrecoverableFailure => b

/-- src: test.rs, ResultBuilder::to_result.  The assert_eq! on
partial_points_processed is modelled as none (a panic produces no
TestResult). -/
def ResultBuilder.to_result (b : ResultBuilder) : Option TestResult :=
  if b.partial_points_processed = b.points_possible then
    let score := if b.test_failed then Score.zero_points b.points_possible else b.score
    some
      (if score.received_full_points then ⟨.Pass score, b.output⟩
       else ⟨.Fail score, b.output⟩)
  else none

/-- src: test.rs, the stage loop of GenosTest::run.  A stage is modelled by
the outcome of running it (StageResult or system error).  record_result runs
before the UnrecoverableFailure check, so the failing stage's fragment is in
the returned output. -/
def runLoop (points : Points) :
    List (Except Nat StageResult) → ResultBuilder → Except Nat (Option TestResult)
  | [], b => .ok b.to_result
  | stage :: rest, b =>
    match stage with
    | .error e => .error e
    | .ok res =>
      let b := b.record_result res
      match res.status with
      | .UnrecoverableFailure =>
        .ok (some ⟨.Fail (Score.zero_points points), b.output⟩)
      | _ => runLoop points rest b

/-- src: test.rs, GenosTest::run. -/
def GenosTest.run (points : Points) (stages : List (Except Nat StageResult)) :
    Except Nat (Option TestResult) :=
  runLoop points stages (ResultBuilder.new points)

end TestRs

/-! ### Process executor (src/genos/src/process.rs)

Durations are modelled as Nat (the unit is irrelevant: they are only
compared and carried). -/

abbrev Duration := Nat

/-- src: process.rs, SignalType. -/
inductive SignalType where
  | SegFault : SignalType
  | Abort : SignalType
  deriving DecidableEq, Repr

/-- src: process.rs, impl From SignalType for i32. -/
def SignalType.toCode : SignalType → Int
  | .SegFault => 11
  | .Abort => 6

/-- src: process.rs, impl From i32 for SignalType.  The catch-all arm
panics ("unexpected signal"), modelled as none. -/
def SignalType.fromCode (value : Int) : Option SignalType :=
  if value = 11 then some .SegFault
  else if value = 6 then some .Abort
  else none

/-- src: process.rs, ExitStatus. -/
inductive ExitStatus where
  | Ok : ExitStatus
  | Failure : (code : Int) → ExitStatus
  | Timeout : Duration → ExitStatus
  | Signal : SignalType → ExitStatus
  deriving DecidableEq, Repr

/-- src: process.rs, ExitStatus::completed. -/
def ExitStatus.completed : ExitStatus → Bool
  | .Ok => true
  | .Failure _ => true
  | _ => false

/-- src: process.rs, ExitStatus::exit_code. -/
def ExitStatus.exit_code : ExitStatus → Option Int
  | .Ok => some 0
  | .Failure rc => some rc
  | .Timeout _ => none
  | .Signal signal => some signal.toCode

/-- std::process::ExitStatus on Unix, as observed through success()/code()/
signal(): a child either exited with an i32 passed to exit(), of which the
OS keeps code mod 256, or was terminated by a signal. -/
inductive StdExitStatus where
  | exited : (code : Int) → StdExitStatus
  | signaled : (sig : Int) → StdExitStatus
  deriving DecidableEq, Repr

/-- Unix semantics of StdExitStatus::success. -/
def StdExitStatus.success : StdExitStatus → Bool
  | .exited c => c % 256 == 0
  | .signaled _ => false

/-- Unix semantics of StdExitStatus::code (WEXITSTATUS, i.e. mod 256). -/
def StdExitStatus.code : StdExitStatus → Option Int
  | .exited c => some (c % 256)
  | .signaled _ => none

/-- Unix semantics of StdExitStatus::signal. -/
def StdExitStatus.signal : StdExitStatus → Option Int
  | .exited _ => none
  | .signaled s => some s

/-- src: process.rs, impl From StdExitStatus for ExitStatus.  The final
unreachable! and the SignalType::from panic are modelled as none. -/
def ExitStatus.fromStd (status : StdExitStatus) : Option ExitStatus :=
  if status.success then some .Ok
  else
    match status.code with
    | some rc => some (.Failure rc)
    | none =>
      match status.signal with
      | some sig => (SignalType.fromCode sig).map .Signal
      | none => none

/-- src: process.rs, Output (of a process run). -/
structure ProcessOutput where
  status : ExitStatus
  stdout : String
  stderr : String
  deriving DecidableEq, Repr

/-- src: process.rs, Output::from_exit_status. -/
def ProcessOutput.from_exit_status (status : ExitStatus) : ProcessOutput :=
  ⟨status, "", ""⟩

/-- The child process as the executor can observe it: when it would exit if
left alone, with which wait status, and what it wrote to its pipes. -/
structure ChildBehavior where
  exitTime : Nat
  status : StdExitStatus
  stdout : String
  stderr : String

/-- src: process.rs, ShellExecutor::run, reduced to its exit logic: with a
timeout configured, the bounded wait either elapses (child exits after the
deadline) and Output::from_exit_status(Timeout) is returned at once, or the
wait status goes through ExitStatus::from; with no timeout the wait status
always goes through the mapping.  A none models a panic inside the
mapping. -/
def ShellExecutor.run (timeoutCfg : Option Duration) (child : ChildBehavior) :
    Option ProcessOutput :=
  match timeoutCfg with
  | some duration =>
    if duration < child.exitTime then
      some (ProcessOutput.from_exit_status (.Timeout duration))
    else (ExitStatus.fromStd child.status).map (⟨·, child.stdout, child.stderr⟩)
  | none => (ExitStatus.fromStd child.status).map (⟨·, child.stdout, child.stderr⟩)

/-- src: output.rs, Update::notes builder. -/
def Update.with_notes (u : Update) (c : Content) : Update :=
  .mk u.description u.status (some c)

end Genos

/-! ## grader_systems crate -/

namespace GraderSystems

open Genos

/-! ### Run stage (src/grader_systems/src/stage/run.rs) -/

/-- src: run.rs, ReturnCodeConfig. -/
structure ReturnCodeConfig where
  expected : Int
  points : PointQuantity
  deriving DecidableEq, Repr

/-- Rust Debug rendering of a Duration, kept abstract as the decimal value
(only used inside a feedback string no claim depends on). -/
def durationRepr (d : Duration) : String := toString d

/-- src: run.rs, get_signal_feedback (the SegFault text is the join of the
trimmed source lines). -/
def get_signal_feedback : SignalType → Content
  | .Abort =>
    .Block ⟨"Runtime error: Your submission exited with error code 6 (abort signal)", false⟩
  | .SegFault =>
    .Block
      ⟨"Runtime error: Your submission exited with error code 11 (segmentation fault)\n" ++
        "Double check you initialized all your variables before using them.\n" ++
        "Check your variables again.\n" ++
        "Check any array access points to make sure you are in bounds.\n" ++
        "Check pointer dereferences, you may be accidentally dereferencing a NULL pointer.",
        false⟩

/-- src: run.rs, Run::get_failed_run_notes (only reached when the status is
not completed, so the catch-all is unreachable; it is mapped to an empty
block). -/
def get_failed_run_notes : ExitStatus → Content
  | .Timeout duration =>
    .Block ⟨"Runtime error: program timed out after " ++ durationRepr duration, false⟩
  | .Signal signal => get_signal_feedback signal
  | _ => .Block ⟨"", false⟩

/-- src: run.rs, Run::run.  The workspace lookup is summarised by
execExists, the rendered command line by cmdStr, and the process-executor
call by its ProcessOutput.  The exit_code().expect(..) is safe in its
branch because the status completed, so getD never takes its default. -/
def Run.run (return_code : Option ReturnCodeConfig) (execExists : Bool) (cmdStr : String)
    (res : ProcessOutput) : Except Nat Genos.StageResult :=
  if !execExists then .error 0
  else
    let sectionBase : List Content := [.SubSection "run command" [.Block ⟨cmdStr, true⟩]]
    if !res.status.completed then
      let updates := [(Update.new_fail "Running program" .FullPoints).with_notes
        (get_failed_run_notes res.status)]
      .ok ⟨.UnrecoverableFailure,
        some ⟨[⟨"Run Program", sectionBase ++ [.StatusList updates]⟩]⟩⟩
    else
      let updates := [Update.new_pass "Running program"]
      match return_code with
      | some rc_config =>
        let rc := (res.status.exit_code).getD 0
        if rc ≠ rc_config.expected then
          let updates := updates ++
            [(Update.new_fail "Checking return code" .FullPoints).with_notes
              (.Block ⟨"Expected " ++ toString rc_config.expected ++ ", but found " ++
                toString rc, false⟩)]
          .ok ((StageResult.new_continue (PointQuantity.zero.add rc_config.points)).with_output
            ⟨[⟨"Run Program", sectionBase ++ [.StatusList updates]⟩]⟩)
        else
          let updates := updates ++ [Update.new_pass "Checking return code"]
          .ok ((StageResult.new_continue PointQuantity.zero).with_output
            ⟨[⟨"Run Program", sectionBase ++ [.StatusList updates]⟩]⟩)
      | none =>
        .ok ((StageResult.new_continue PointQuantity.zero).with_output
          ⟨[⟨"Run Program", sectionBase⟩]⟩)

/-! ### Valgrind stage (src/grader_systems/src/stage/valgrind.rs) -/

/-- src: valgrind.rs, ERROR_EXITCODE. -/
def ERROR_EXITCODE : Int := 125

/-- src: valgrind.rs, ValgrindConfig. -/
structure ValgrindConfig where
  points : PointQuantity
  suppressions : Option (List String)
  deriving Repr

/-- src: valgrind.rs, the timeout feedback string (to.as_secs(), with the
Duration here counted in seconds). -/
def valgrindTimeoutMsg (secs : Nat) : String :=
  "Your submission timed out after " ++ toString secs ++ " second" ++
    (if secs == 1 then "" else "s") ++ " :("

/-- src: valgrind.rs, Valgrind::run after gen_cmd and read_logfile
succeeded: cmdStr is the path-hidden command line, log the path-hidden log
contents.  The code first branches on !completed() (matching only Timeout
and Signal there) and then on Ok/Failure; both panic arms are unreachable
and need no model.  Failure below ERROR_EXITCODE is a system error. -/
def Valgrind.run (config : ValgrindConfig) (cmdStr : String) (log : String)
    (status : ExitStatus) : Except Nat Genos.StageResult :=
  let runCommand : Content := .SubSection "Run Command" [.Block ⟨cmdStr, true⟩]
  match status with
  | .Timeout dur =>
    let u := (Update.new_fail "running valgrind" config.points).with_notes
      (.Block ⟨valgrindTimeoutMsg dur, false⟩)
    .ok ⟨.Continue config.points,
      some ⟨[⟨"Valgrind", [runCommand, .StatusList [u]]⟩]⟩⟩
  | .Signal sig =>
    let u := (Update.new_fail "running valgrind" config.points).with_notes
      (.Block ⟨"Your submission was killed by " ++
        (if sig = .Abort then "SIGABRT" else "SIGSEGV") ++ "!", false⟩)
    .ok ⟨.Continue config.points,
      some ⟨[⟨"Valgrind",
        [runCommand, .StatusList [u], .SubSection "Output" [.Block ⟨log, false⟩]]⟩]⟩⟩
  | .Ok =>
    .ok ⟨.Continue PointQuantity.zero,
      some ⟨[⟨"Valgrind",
        [runCommand, .StatusList [Update.new_pass "running valgrind"],
          .SubSection "Output" [.Block ⟨log, false⟩]]⟩]⟩⟩
  | .Failure rc =>
    if rc < ERROR_EXITCODE then .error 1
    else
      let u := (Update.new_fail "running valgrind" config.points).with_notes
        (.Block ⟨"Valgrind Errors Detected", false⟩)
      .ok ⟨.Continue config.points,
        some ⟨[⟨"Valgrind",
          [runCommand, .StatusList [u], .SubSection "Output" [.Block ⟨log, false⟩]]⟩]⟩⟩

/-- Whether a content item is the valgrind results subsection (header
"Output"), used to state that a branch attached no log output. -/
def isOutputSubSection : Content → Bool
  | .SubSection h _ => h == "Output"
  | _ => false

end GraderSystems

namespace Genos

/-! ### Status-list rendering (src/genos/src/output.rs, status_update_summary) -/

/-- src: points.rs, Display for Points: the hundredths value printed with
two decimals. -/
def Points.toDisplay (n : Points) : String :=
  toString (n / 100) ++ "." ++ (if n % 100 < 10 then "0" else "") ++ toString (n % 100)

/-- src: points.rs, Display for PointQuantity. -/
def PointQuantity.toDisplay : PointQuantity → String
  | .FullPoints => "fullpoints"
  | .Partial p => Points.toDisplay p

/-- src: output.rs, Display for Status. -/
def Status.toDisplay : Status → String
  | .Pass => "pass"
  | .Fail _ => "fail"

/-- src: output.rs, the dots built by iter::repeat(".").take(n). -/
def dotsRun (n : Nat) : String := String.mk (List.replicate n '.')

/-- src: output.rs, the fold computing the maximum description length in
status_update_summary.  Rust's len() is the byte length; descriptions are
modelled at char granularity (identical on ASCII). -/
def maxDescLen (updates : List Update) : Nat :=
  updates.foldl (fun acc u => max acc u.description.length) 0

/-- src: output.rs, one line of status_update_summary, given the maximum
description length over the list. -/
def summaryLine (max_len : Nat) (u : Update) : String :=
  let dot_count := 4 + max_len - u.description.length
  let update_str := u.description ++ " " ++ dotsRun dot_count ++ " " ++ u.status.toDisplay
  match u.status with
  | .Pass => update_str
  | .Fail points_lost => update_str ++ " (-" ++ points_lost.toDisplay ++ ")"

/-- src: output.rs, status_update_summary: the lines joined with the
formatter's newline separator. -/
def status_update_summary (updates : List Update) (newline : String) : String :=
  String.intercalate newline (updates.map (summaryLine (maxDescLen updates)))

/-- Everything a rendered line holds from its status onwards: the status
text plus, for Fail, the points-lost suffix. -/
def statusTail (u : Update) : String :=
  match u.status with
  | .Pass => "pass"
  | .Fail points_lost => "fail" ++ " (-" ++ points_lost.toDisplay ++ ")"

/-! ### Byte transform (src/genos/src/stage/compare_files.rs,
load_transformed_content).  File contents are byte lists (Nat < 256). -/

/-- ASCII digit for 0..9. -/
def digitChar (n : Nat) : Char := Char.ofNat (48 + n)

def natDigitsGo : Nat → Nat → List Char
  | 0, _ => []
  | fuel + 1, n =>
    if n < 10 then [digitChar n] else natDigitsGo fuel (n / 10) ++ [digitChar (n % 10)]

/-- Decimal digits of a Nat, most significant first. -/
def natDigits (n : Nat) : List Char := natDigitsGo (n + 1) n

/-- src: compare_files.rs, line_number_str: format "{:02}| " (zero-padded
to width 2, wider numbers printed in full). -/
def lineNumberStr (n : Nat) : List Char :=
  (if n < 10 then '0' :: natDigits n else natDigits n) ++ ['|', ' ']

/-- Lowercase hex digit. -/
def hexDigitChar (n : Nat) : Char :=
  if n < 10 then digitChar n else Char.ofNat (87 + n)

/-- Lowercase hex digits of a byte. -/
def hexDigits (b : Nat) : List Char :=
  if b < 16 then [hexDigitChar b] else [hexDigitChar (b / 16), hexDigitChar (b % 16)]

/-- src: compare_files.rs, the transform_byte closure.  Bytes 0 and 9..=13
map to escape text (10 to the literal backslash-n followed by a real
newline), 0x20..=0x7E to themselves, the rest to "(0x<hex>)". -/
def transform_byte (b : Nat) : List Char :=
  if b = 0 then ['(', '\\', 'x', '0', '0', ')']
  else if b = 9 then ['(', '\\', 't', ')']
  else if b = 10 then ['\\', 'n', '\n']
  else if b = 11 then ['(', '\\', 'v', ')']
  else if b = 12 then ['(', '\\', 'f', ')']
  else if b = 13 then ['(', '\\', 'r', ')']
  else if 32 ≤ b && b ≤ 126 then [Char.ofNat b]
  else '(' :: '0' :: 'x' :: (hexDigits b ++ [')'])

/-- src: compare_files.rs, the byte loop of load_transformed_content: after
each transformed byte, a newline byte additionally emits the next line
number. -/
def transformGo : List Nat → Nat → List Char
  | [], _ => []
  | b :: rest, ln =>
    if b = 10 then transform_byte b ++ (lineNumberStr (ln + 1) ++ transformGo rest (ln + 1))
    else transform_byte b ++ transformGo rest ln

/-- src: compare_files.rs, load_transformed_content applied to the byte
list read from the file: the first line number, then the transformed
bytes. -/
def load_transformed_content (contents : List Nat) : List Char :=
  lineNumberStr 1 ++ transformGo contents 1

/-- The lines of a char sequence, split at every newline. -/
def splitLines : List Char → List (List Char)
  | [] => [[]]
  | c :: rest =>
    if c = '\n' then [] :: splitLines rest
    else
      match splitLines rest with
      | [] => [[c]]
      | l :: ls => (c :: l) :: ls

/-- Rejoin lines with newlines (inverse of splitLines). -/
def joinLines : List (List Char) → List Char
  | [] => []
  | [l] => l
  | l :: ls => l ++ '\n' :: joinLines ls

/-- Removes one leading line-number prefix — one or more digits followed by
"| " — when the line starts with one, else leaves the line unchanged. -/
def dropLineNum (s : List Char) : List Char :=
  if (s.takeWhile (fun c => c.isDigit)) ≠ []
      ∧ (s.dropWhile (fun c => c.isDigit)).take 2 = ['|', ' ']
  then (s.dropWhile (fun c => c.isDigit)).drop 2
  else s

/-- Stripping the NN| line-number prefixes: drop the prefix of every
line. -/
def stripLineNums (s : List Char) : List Char :=
  joinLines ((splitLines s).map dropLineNum)

/-- What each input byte contributes to the prefix-stripped transform: LF
keeps a literal backslash-n escape in front of the real newline; a
printable byte is itself. -/
def escapeByte (b : Nat) : List Char :=
  if b = 10 then ['\\', 'n', '\n'] else [Char.ofNat b]

end Genos

namespace GraderSystems

open Genos

/-! ### Test configuration (src/grader_systems/src/config.rs) -/

/-- src: gs.rs, Visibility. -/
inductive Visibility where
  | Hidden | Visible | AfterDueDate | AfterPublished
  deriving DecidableEq, Repr

/-- src: gs.rs, TestDescription.  config.rs::validate reads the points
total under the name total_points (the gs.rs revision in the snapshot
declares the field as points). -/
structure TestDescription where
  name : String
  description : String
  test_id : Nat
  total_points : Points
  visibility : Visibility
  tags : Option (List String)
  deriving Repr

/-- src: compare_files.rs, CompareType. -/
inductive CompareType where
  | Diff | Grep | ReverseGrep
  deriving DecidableEq, Repr

/-- src: compare_files.rs, CompareConfig. -/
structure CompareConfig where
  expected : List String
  student_file : String
  compare_type : CompareType
  points : PointQuantity
  show_output : Bool
  deriving Repr

/-- src: compare_files.rs, ComparesConfig. -/
structure ComparesConfig where
  compares : List CompareConfig
  deriving Repr

/-- src: import_files.rs, ImportConfig. -/
structure ImportConfig where
  files : List String
  deriving Repr

/-- src: compile.rs, CompileConfig. -/
structure CompileConfig where
  make_args : Option (List String)
  deriving Repr

/-- src: run.rs, RunConfig. -/
structure RunConfig where
  args : List String
  executable : String
  timeout : Option Duration
  stdout : Option String
  stderr : Option String
  stdin : Option String
  return_code : Option ReturnCodeConfig
  disable_garbage_memory : Option Bool
  deriving Repr

/-- src: config.rs, TestType. -/
inductive TestType where
  | Diff
  deriving DecidableEq, Repr

/-- src: config.rs, TestConfig. -/
structure TestConfig where
  description : TestDescription
  test_type : TestType
  compile : CompileConfig
  run : RunConfig
  compare_files : Option ComparesConfig
  import_files : Option ImportConfig
  valgrind : Option ValgrindConfig
  deriving Repr

/-- src: config.rs, TestConfigValidationError. -/
inductive TestConfigValidationError where
  | MixedPointQuantities : TestConfigValidationError
  | InvalidPointTotal :
      (configured_total_points calculated_total_points : Points) → TestConfigValidationError
  deriving DecidableEq, Repr

/-- The value a PointQuantity contributes in the all-Partial fold of
validate (the FullPoints arm is the unreachable! there). -/
def partialValue : PointQuantity → Points
  | .Partial p => p
  | .FullPoints => 0

/-- src: config.rs, TestConfig::validate. -/
def TestConfig.validate (c : TestConfig) : Except TestConfigValidationError Unit :=
  let configured_points :=
    (match c.run.return_code with
     | some rc_config => [rc_config.points]
     | none => []) ++
    (match c.compare_files with
     | some compare_config => compare_config.compares.map (fun compare => compare.points)
     | none => [])
  let allFullPoints := configured_points.all (fun p => p.is_full_points)
  let allPartialPoints := configured_points.all (fun p => !p.is_full_points)
  if !(allFullPoints || allPartialPoints) then .error .MixedPointQuantities
  else if allPartialPoints then
    let total := configured_points.foldl (fun acc p => acc + partialValue p) 0
    if total ≠ c.description.total_points then
      .error (.InvalidPointTotal c.description.total_points total)
    else .ok ()
  else .ok ()

/-- src: config.rs, the Deserialize wrapper for TestConfig: given a
syntactically well-formed config, deserialization succeeds exactly when
validate does. -/
def TestConfig.deserialize (c : TestConfig) : Except TestConfigValidationError TestConfig :=
  (c.validate).map (fun _ => c)

end GraderSystems

namespace Genos

/-- The concatenation of the output fragments of a stage list, exactly as
ResultBuilder accumulates them. -/
def TestRs.collectOutput (stages : List TestRs.StageResult) : Output :=
  stages.foldl (fun acc r => acc.append (r.output.getD Output.new)) Output.new

/-- escapeByte over a whole byte list. -/
def escapeBytes : List Nat → List Char
  | [] => []
  | b :: rest => escapeByte b ++ escapeBytes rest

/-- The stage a Continue-with-partial-score outcome produces. -/
def TestRs.partialStage (s : Score) : TestRs.StageResult :=
  ⟨.Continue (.Partial s), none⟩

/-- The digit part of a line-number prefix. -/
def lineNumDigits (n : Nat) : List Char :=
  if n < 10 then '0' :: natDigits n else natDigits n

end Genos


/-! ## Theorems -/

namespace Genos

theorem rtapr_ok {t : TestCase} {r : TestResult} (h : t.behavior = .ok r) :
    run_test_and_process_result t = ⟨r, none⟩ := by
  simp [run_test_and_process_result, h]

theorem rtapr_err_isSome {t : TestCase} {e : Nat} (h : t.behavior = .error e) :
    (run_test_and_process_result t).err = some e := by
  simp [run_test_and_process_result, h]

theorem rtapr_err_none {t : TestCase} (h : ∃ r, t.behavior = .ok r) :
    (run_test_and_process_result t).err = none := by
  obtain ⟨r, hr⟩ := h
  simp [rtapr_ok hr]

theorem run_all_tests_all_ok (setup tests : List TestCase)
    (h : ∀ t ∈ setup, ∃ r, t.behavior = .ok r) :
    run_all_tests setup tests
      = setup.map run_test_and_process_result ++ tests.map run_test_and_process_result := by
  induction setup with
  | nil => simp [run_all_tests]
  | cons t rest ih =>
    obtain ⟨r, hr⟩ := h t (List.mem_cons_self t rest)
    rw [run_all_tests, rtapr_ok hr]
    simp only [Option.isSome_none, Bool.false_eq_true, if_false, List.map_cons, List.cons_append]
    rw [← rtapr_ok hr, ih (fun t ht => h t (List.mem_cons_of_mem _ ht))]

theorem run_all_tests_setup_err (pre post tests : List TestCase) (failCase : TestCase)
    (e : Nat) (hpre : ∀ t ∈ pre, ∃ r, t.behavior = .ok r)
    (hfail : failCase.behavior = .error e) :
    run_all_tests (pre ++ failCase :: post) tests
      = pre.map run_test_and_process_result ++ [run_test_and_process_result failCase] := by
  induction pre with
  | nil =>
    rw [List.nil_append, run_all_tests, rtapr_err_isSome hfail]
    simp only [Option.isSome_some, if_true, List.map_nil, List.nil_append]
  | cons t rest ih =>
    obtain ⟨r, hr⟩ := hpre t (List.mem_cons_self t rest)
    rw [List.cons_append, run_all_tests, rtapr_ok hr]
    simp only [Option.isSome_none, Bool.false_eq_true, if_false, List.map_cons, List.cons_append]
    rw [← rtapr_ok hr, ih (fun t ht => hpre t (List.mem_cons_of_mem _ ht))]

theorem foldl_step_error (l : List RunResult) (e : Nat) :
    l.foldl foldStep (.error e) = .error e := by
  induction l with
  | nil => rfl
  | cons r rest ih => simpa [foldStep] using ih

theorem foldl_step_all_none (l : List RunResult) (acc : List TestResult)
    (h : ∀ r ∈ l, r.err = none) :
    l.foldl foldStep (.ok acc) = .ok (acc ++ l.map (fun r => r.res)) := by
  induction l generalizing acc with
  | nil => simp
  | cons r rest ih =>
    have hr : r.err = none := h r (List.mem_cons_self r rest)
    rw [List.foldl_cons, foldStep, hr]
    rw [ih (acc ++ [r.res]) (fun x hx => h x (List.mem_cons_of_mem _ hx))]
    simp

theorem foldRunResults_first_err (okpre : List RunResult) (x : RunResult)
    (suffix : List RunResult) (e : Nat) (h : ∀ r ∈ okpre, r.err = none)
    (hx : x.err = some e) :
    foldRunResults (okpre ++ x :: suffix) = .error e := by
  rw [foldRunResults, List.foldl_append, foldl_step_all_none okpre [] h, List.foldl_cons]
  rw [show foldStep (.ok ([] ++ okpre.map (fun r => r.res))) x = .error e by
    rw [foldStep, hx]]
  exact foldl_step_error suffix e

end Genos

namespace Genos

theorem rtapr_err_status {t : TestCase} {e : Nat} (h : t.behavior = .error e) :
    (run_test_and_process_result t).res.status = .Fail (Score.zero_points t.points) := by
  simp [run_test_and_process_result, h, TestResult.new, TestResult.lose_full_points,
    TestStatus.score, Score.full_points, Score.zero_points]

theorem rtapr_err_contains {t : TestCase} {e : Nat} (h : t.behavior = .error e) :
    (run_test_and_process_result t).res.output.containsB "System Error Occurred" = true := by
  simp only [run_test_and_process_result, h, TestResult.new, TestResult.lose_full_points]
  rfl

/-- Claim C1: Genos::run executes the setup tests sequentially in order; if
a setup test returns a system error, no later setup test and no regular
test is executed, the writers still receive exactly the results collected
so far (the ok prefix plus the converted failing result, so pre.length + 1
entries), the failing entry is a zero-score Fail whose output contains
"System Error Occurred", and run returns that first system error. -/
theorem C1_setup_short_circuit (pre post tests : List TestCase) (failCase : TestCase)
    (e : Nat) (hpre : ∀ t ∈ pre, ∃ r, t.behavior = .ok r)
    (hfail : failCase.behavior = .error e) :
    (Genos.run (pre ++ failCase :: post) tests).writersReceived
        = pre.map run_test_and_process_result ++ [run_test_and_process_result failCase]
      ∧ (Genos.run (pre ++ failCase :: post) tests).writersReceived.length = pre.length + 1
      ∧ (run_test_and_process_result failCase).res.status
          = .Fail (Score.zero_points failCase.points)
      ∧ (run_test_and_process_result failCase).res.output.containsB "System Error Occurred"
          = true
      ∧ (Genos.run (pre ++ failCase :: post) tests).returned = .error e := by
  have hres := run_all_tests_setup_err pre post tests failCase e hpre hfail
  have hwriters : (Genos.run (pre ++ failCase :: post) tests).writersReceived
      = pre.map run_test_and_process_result ++ [run_test_and_process_result failCase] := by
    simp [Genos.run, hres]
  refine ⟨hwriters, ?_, rtapr_err_status hfail, rtapr_err_contains hfail, ?_⟩
  · rw [hwriters]; simp
  · show foldRunResults (run_all_tests (pre ++ failCase :: post) tests) = .error e
    rw [hres]
    exact foldRunResults_first_err _ _ [] e
      (by
        intro r hr
        obtain ⟨t, ht, rfl⟩ := List.mem_map.mp hr
        exact rtapr_err_none (hpre t ht))
      (rtapr_err_isSome hfail)

/-- Witness for C1, instantiating scenario S2: setups = ok(1), error, ok(1);
tests = ok(1), ok(1).  The writers receive exactly 2 entries and run
returns the error. -/
theorem C1_setup_short_circuit_witness :
    (Genos.run
        [⟨100, .ok (TestResult.new 100)⟩, ⟨100, .error 0⟩, ⟨100, .ok (TestResult.new 100)⟩]
        [⟨100, .ok (TestResult.new 100)⟩, ⟨100, .ok (TestResult.new 100)⟩]).writersReceived.length
        = 2
      ∧ (Genos.run
          [⟨100, .ok (TestResult.new 100)⟩, ⟨100, .error 0⟩, ⟨100, .ok (TestResult.new 100)⟩]
          [⟨100, .ok (TestResult.new 100)⟩, ⟨100, .ok (TestResult.new 100)⟩]).returned
        = .error 0 := by
  have h := C1_setup_short_circuit [⟨100, .ok (TestResult.new 100)⟩]
    [⟨100, .ok (TestResult.new 100)⟩]
    [⟨100, .ok (TestResult.new 100)⟩, ⟨100, .ok (TestResult.new 100)⟩]
    ⟨100, .error 0⟩ 0
    (by
      intro t ht
      simp only [List.mem_singleton] at ht
      exact ⟨TestResult.new 100, by rw [ht]⟩)
    rfl
  exact ⟨h.2.1, h.2.2.2.2⟩

/-- Claim C2: a regular test whose run returns a system error is replaced
by a zero-score Fail TestResult whose output contains a "System Error
Occurred" section; that entry is still delivered to every writer in the
full ordered result list (at its input position), and run returns the
first such system error after the writers were invoked. -/
theorem C2_system_error_conversion (setup preT postT : List TestCase) (t : TestCase)
    (e : Nat) (hsetup : ∀ s ∈ setup, ∃ r, s.behavior = .ok r)
    (hpre : ∀ s ∈ preT, ∃ r, s.behavior = .ok r) (ht : t.behavior = .error e) :
    (Genos.run setup (preT ++ t :: postT)).writersReceived
        = (setup ++ preT ++ t :: postT).map run_test_and_process_result
      ∧ (Genos.run setup (preT ++ t :: postT)).writersReceived[setup.length + preT.length]?
          = some (run_test_and_process_result t)
      ∧ (run_test_and_process_result t).res.status = .Fail (Score.zero_points t.points)
      ∧ (run_test_and_process_result t).res.output.containsB "System Error Occurred" = true
      ∧ (Genos.run setup (preT ++ t :: postT)).returned = .error e := by
  have hres := run_all_tests_all_ok setup (preT ++ t :: postT) hsetup
  have hwriters : (Genos.run setup (preT ++ t :: postT)).writersReceived
      = (setup ++ preT ++ t :: postT).map run_test_and_process_result := by
    simp [Genos.run, hres]
  have hsplit : (setup ++ preT ++ t :: postT).map run_test_and_process_result
      = ((setup ++ preT).map run_test_and_process_result)
        ++ run_test_and_process_result t :: postT.map run_test_and_process_result := by
    simp
  refine ⟨hwriters, ?_, rtapr_err_status ht, rtapr_err_contains ht, ?_⟩
  · rw [hwriters, hsplit]
    have hlen : ((setup ++ preT).map run_test_and_process_result).length
        = setup.length + preT.length := by simp
    rw [← hlen, List.getElem?_append_right (Nat.le_refl _)]
    simp
  · show foldRunResults (run_all_tests setup (preT ++ t :: postT)) = .error e
    rw [hres, show setup.map run_test_and_process_result
        ++ (preT ++ t :: postT).map run_test_and_process_result
      = ((setup ++ preT).map run_test_and_process_result)
        ++ run_test_and_process_result t :: postT.map run_test_and_process_result by simp]
    exact foldRunResults_first_err _ _ _ e
      (by
        intro r hr
        obtain ⟨s, hs, rfl⟩ := List.mem_map.mp hr
        rcases List.mem_append.mp hs with h | h
        · exact rtapr_err_none (hsetup s h)
        · exact rtapr_err_none (hpre s h))
      (rtapr_err_isSome ht)

/-- Witness for C2, instantiating scenario S3 shrunk to one error: tests =
ok, error, ok with no setups; all three results reach the writers, the
error entry is a zero-score Fail containing "System Error Occurred", and
run returns the error. -/
theorem C2_system_error_conversion_witness :
    (Genos.run []
        [⟨100, .ok (TestResult.new 100)⟩, ⟨100, .error 5⟩, ⟨100, .ok (TestResult.new 100)⟩]).writersReceived.length
        = 3
      ∧ (run_test_and_process_result ⟨100, .error 5⟩).res.status
          = .Fail (Score.zero_points 100)
      ∧ (run_test_and_process_result ⟨100, .error 5⟩).res.output.containsB
          "System Error Occurred" = true
      ∧ (Genos.run []
          [⟨100, .ok (TestResult.new 100)⟩, ⟨100, .error 5⟩, ⟨100, .ok (TestResult.new 100)⟩]).returned
          = .error 5 := by
  have h := C2_system_error_conversion [] [⟨100, .ok (TestResult.new 100)⟩]
    [⟨100, .ok (TestResult.new 100)⟩] ⟨100, .error 5⟩ 5
    (by intro s hs; simp at hs)
    (by
      intro s hs
      simp only [List.mem_singleton] at hs
      exact ⟨TestResult.new 100, by rw [hs]⟩)
    rfl
  refine ⟨?_, h.2.2.1, h.2.2.2.1, h.2.2.2.2⟩
  rw [show (Genos.run []
      [⟨100, .ok (TestResult.new 100)⟩, ⟨100, .error 5⟩, ⟨100, .ok (TestResult.new 100)⟩])
    = Genos.run [] ([⟨100, .ok (TestResult.new 100)⟩]
      ++ ⟨100, .error 5⟩ :: [⟨100, .ok (TestResult.new 100)⟩]) from rfl, h.1]
  rfl

end Genos

namespace Genos

theorem record_result_output (b : TestRs.ResultBuilder) (r : TestRs.StageResult) :
    (b.record_result r).output = b.output.append (r.output.getD Output.new) := by
  rcases r with ⟨st, o⟩
  cases st with
  | Continue sp => cases sp <;> rfl
  | UnrecoverableFailure => rfl

theorem output_foldl_sections (l : List TestRs.StageResult) (a : Output) :
    (l.foldl (fun acc r => acc.append (r.output.getD Output.new)) a).sections
      = a.sections ++ (TestRs.collectOutput l).sections := by
  induction l generalizing a with
  | nil => simp [TestRs.collectOutput, Output.new]
  | cons r rest ih =>
    rw [TestRs.collectOutput, List.foldl_cons, List.foldl_cons, ih, ih]
    simp [Output.append, Output.new]

theorem builder_foldl_output (pre : List TestRs.StageResult) (b : TestRs.ResultBuilder) :
    (pre.foldl TestRs.ResultBuilder.record_result b).output.sections
      = b.output.sections ++ (TestRs.collectOutput pre).sections := by
  induction pre generalizing b with
  | nil => simp [TestRs.collectOutput, Output.new]
  | cons r rest ih =>
    rw [TestRs.collectOutput, List.foldl_cons, List.foldl_cons, ih, record_result_output,
      output_foldl_sections]
    simp [Output.append, Output.new]

theorem runLoop_continue_front (points : Points) (pre : List TestRs.StageResult)
    (hpre : ∀ r ∈ pre, r.status ≠ .UnrecoverableFailure)
    (k : List (Except Nat TestRs.StageResult)) (b : TestRs.ResultBuilder) :
    TestRs.runLoop points (pre.map .ok ++ k) b
      = TestRs.runLoop points k (pre.foldl TestRs.ResultBuilder.record_result b) := by
  induction pre generalizing b with
  | nil => rfl
  | cons r rest ih =>
    have hr : r.status ≠ .UnrecoverableFailure := hpre r (List.mem_cons_self r rest)
    rw [List.map_cons, List.cons_append, TestRs.runLoop]
    cases hst : r.status with
    | UnrecoverableFailure => exact absurd hst hr
    | Continue sp =>
      simp only [hst]
      rw [ih (fun x hx => hpre x (List.mem_cons_of_mem _ hx)), List.foldl_cons]

/-- Claim C3: if a stage returns StageStatus::UnrecoverableFailure then
GenosTest::run returns a Fail(zero-points(max)) TestResult without invoking
any later stage (the trailing stage list does not appear in the result),
and the returned output is the concatenation of every fragment appended by
the stages run so far, the failing stage's fragment included. -/
theorem C3_runner_stops_on_unrecoverable (points : Points) (pre : List TestRs.StageResult)
    (failOut : Option Output) (rest : List (Except Nat TestRs.StageResult))
    (hpre : ∀ r ∈ pre, r.status ≠ TestRs.StageStatus.UnrecoverableFailure) :
    TestRs.GenosTest.run points
        (pre.map .ok ++ .ok ⟨.UnrecoverableFailure, failOut⟩ :: rest)
      = .ok (some ⟨.Fail (Score.zero_points points),
          TestRs.collectOutput (pre ++ [⟨.UnrecoverableFailure, failOut⟩])⟩) := by
  rw [TestRs.GenosTest.run, runLoop_continue_front points pre hpre, TestRs.runLoop]
  simp only
  congr 1
  congr 1
  congr 1
  have h1 := builder_foldl_output (pre ++ [⟨.UnrecoverableFailure, failOut⟩])
    (TestRs.ResultBuilder.new points)
  rw [List.foldl_append, List.foldl_cons, List.foldl_nil] at h1
  cases hout : ((pre.foldl TestRs.ResultBuilder.record_result
      (TestRs.ResultBuilder.new points)).record_result
      ⟨.UnrecoverableFailure, failOut⟩).output with
  | mk secs =>
    cases hcoll : TestRs.collectOutput (pre ++ [⟨.UnrecoverableFailure, failOut⟩]) with
    | mk secs2 =>
      congr 1
      have : secs = ((pre.foldl TestRs.ResultBuilder.record_result
          (TestRs.ResultBuilder.new points)).record_result
          ⟨.UnrecoverableFailure, failOut⟩).output.sections := by rw [hout]
      rw [this, h1, hcoll]
      rfl

/-- Witness for C3: one Continue stage with a fragment, then an
unrecoverable stage with a fragment, then a further stage that is never
reached; the result is Fail(0/400) with both fragments. -/
theorem C3_runner_stops_on_unrecoverable_witness :
    TestRs.GenosTest.run 400
        ([(⟨.Continue (.Partial ⟨200, 200⟩),
            some ⟨[⟨"first", []⟩]⟩⟩ : TestRs.StageResult)].map .ok
          ++ .ok ⟨.UnrecoverableFailure, some ⟨[⟨"second", []⟩]⟩⟩
            :: [.ok ⟨.Continue (.Partial ⟨200, 200⟩), none⟩])
      = .ok (some ⟨.Fail (Score.zero_points 400),
          TestRs.collectOutput [⟨.Continue (.Partial ⟨200, 200⟩), some ⟨[⟨"first", []⟩]⟩⟩,
            ⟨.UnrecoverableFailure, some ⟨[⟨"second", []⟩]⟩⟩]⟩) :=
  C3_runner_stops_on_unrecoverable 400
    [⟨.Continue (.Partial ⟨200, 200⟩), some ⟨[⟨"first", []⟩]⟩⟩]
    (some ⟨[⟨"second", []⟩]⟩)
    [.ok ⟨.Continue (.Partial ⟨200, 200⟩), none⟩]
    (by
      intro r hr
      simp only [List.mem_singleton] at hr
      rw [hr]
      intro h
      cases h)

end Genos

namespace Genos

theorem partial_fold_processed (scores : List Score) :
    ∀ b : TestRs.ResultBuilder,
      ((scores.map TestRs.partialStage).foldl TestRs.ResultBuilder.record_result
          b).partial_points_processed
        = b.partial_points_processed + (scores.map Score.possible).sum := by
  induction scores with
  | nil => intro b; simp
  | cons s rest ih =>
    intro b
    rw [List.map_cons, List.foldl_cons, ih]
    have hstep : (b.record_result (TestRs.partialStage s)).partial_points_processed
        = b.partial_points_processed + s.possible := rfl
    rw [hstep, List.map_cons, List.sum_cons]
    exact Nat.add_assoc _ _ _

theorem partial_fold_received (scores : List Score) :
    ∀ b : TestRs.ResultBuilder,
      ((scores.map TestRs.partialStage).foldl TestRs.ResultBuilder.record_result
          b).score.received
        = b.score.received + (scores.map Score.received).sum := by
  induction scores with
  | nil => intro b; simp
  | cons s rest ih =>
    intro b
    rw [List.map_cons, List.foldl_cons, ih]
    have hstep : (b.record_result (TestRs.partialStage s)).score.received
        = b.score.received + s.received := rfl
    rw [hstep, List.map_cons, List.sum_cons]
    exact Nat.add_assoc _ _ _

theorem partial_fold_possible (scores : List Score) :
    ∀ b : TestRs.ResultBuilder,
      ((scores.map TestRs.partialStage).foldl TestRs.ResultBuilder.record_result
          b).score.possible
        = b.score.possible + (scores.map Score.possible).sum := by
  induction scores with
  | nil => intro b; simp
  | cons s rest ih =>
    intro b
    rw [List.map_cons, List.foldl_cons, ih]
    have hstep : (b.record_result (TestRs.partialStage s)).score.possible
        = b.score.possible + s.possible := rfl
    rw [hstep, List.map_cons, List.sum_cons]
    exact Nat.add_assoc _ _ _

theorem partial_fold_failed (scores : List Score) :
    ∀ b : TestRs.ResultBuilder,
      ((scores.map TestRs.partialStage).foldl TestRs.ResultBuilder.record_result
          b).test_failed = b.test_failed := by
  induction scores with
  | nil => intro b; rfl
  | cons s rest ih =>
    intro b
    rw [List.map_cons, List.foldl_cons, ih]
    rfl

theorem partial_fold_max (scores : List Score) :
    ∀ b : TestRs.ResultBuilder,
      ((scores.map TestRs.partialStage).foldl TestRs.ResultBuilder.record_result
          b).points_possible = b.points_possible := by
  induction scores with
  | nil => intro b; rfl
  | cons s rest ih =>
    intro b
    rw [List.map_cons, List.foldl_cons, ih]
    rfl

theorem sum_points_lost (scores : List Score)
    (hle : ∀ s ∈ scores, s.received ≤ s.possible) :
    (scores.map Score.received).sum ≤ (scores.map Score.possible).sum
      ∧ (scores.map Score.points_lost).sum
          = (scores.map Score.possible).sum - (scores.map Score.received).sum := by
  induction scores with
  | nil => simp
  | cons s rest ih =>
    have hs := hle s (List.mem_cons_self s rest)
    have h := ih (fun x hx => hle x (List.mem_cons_of_mem _ hx))
    simp only [List.map_cons, List.sum_cons, Score.points_lost]
    constructor
    · exact Nat.add_le_add hs h.1
    · rw [h.2]
      exact tsub_add_tsub_comm hs h.1

/-- Claim C4: when every stage returns Continue with a partial score (no
unrecoverable failure, no system error) and the per-stage possibles sum to
the test's max (the runner's own assertion), the final score satisfies
received = possible − Σ points-lost with Nat (clamped-at-zero) subtraction,
the possible is the test's max, and the status is Pass exactly when
received equals it. -/
theorem C4_partial_deduction_arithmetic (points : Points) (scores : List Score)
    (hle : ∀ s ∈ scores, s.received ≤ s.possible)
    (hsum : (scores.map Score.possible).sum = points) :
    ∃ res,
      TestRs.GenosTest.run points ((scores.map TestRs.partialStage).map .ok)
          = .ok (some res)
        ∧ res.status.score.received = points - (scores.map Score.points_lost).sum
        ∧ res.status.score.possible = points
        ∧ (res.status.isPass = true ↔ res.status.score.received = points) := by
  have hloop := runLoop_continue_front points (scores.map TestRs.partialStage)
    (by
      intro r hr
      obtain ⟨s, _, rfl⟩ := List.mem_map.mp hr
      intro h
      cases h)
    [] (TestRs.ResultBuilder.new points)
  rw [List.append_nil] at hloop
  set bF := (scores.map TestRs.partialStage).foldl TestRs.ResultBuilder.record_result
    (TestRs.ResultBuilder.new points) with hbF
  have h1 := partial_fold_processed scores (TestRs.ResultBuilder.new points)
  have h2 := partial_fold_received scores (TestRs.ResultBuilder.new points)
  have h3 := partial_fold_possible scores (TestRs.ResultBuilder.new points)
  have h4 := partial_fold_failed scores (TestRs.ResultBuilder.new points)
  have h5 := partial_fold_max scores (TestRs.ResultBuilder.new points)
  rw [← hbF] at h1 h2 h3 h4 h5
  rw [show (TestRs.ResultBuilder.new points).partial_points_processed = 0 from rfl,
    Nat.zero_add] at h1
  rw [show (TestRs.ResultBuilder.new points).score.received = 0 from rfl,
    Nat.zero_add] at h2
  rw [show (TestRs.ResultBuilder.new points).score.possible = 0 from rfl,
    Nat.zero_add] at h3
  rw [show (TestRs.ResultBuilder.new points).test_failed = false from rfl] at h4
  rw [show (TestRs.ResultBuilder.new points).points_possible = points from rfl] at h5
  have hcond : bF.partial_points_processed = bF.points_possible := by
    rw [h1, h5, hsum]
  have hsl := sum_points_lost scores hle
  have hres : TestRs.GenosTest.run points ((scores.map TestRs.partialStage).map .ok)
      = .ok bF.to_result := by
    rw [TestRs.GenosTest.run, hloop, TestRs.runLoop]
  have hto : bF.to_result
      = some (if bF.score.received_full_points then ⟨.Pass bF.score, bF.output⟩
          else ⟨.Fail bF.score, bF.output⟩) := by
    rw [TestRs.ResultBuilder.to_result, if_pos hcond]
    rw [show (if bF.test_failed then Score.zero_points bF.points_possible else bF.score)
      = bF.score by simp [h4]]
  have hscore : (if bF.score.received_full_points then
        (⟨.Pass bF.score, bF.output⟩ : TestResult)
      else ⟨.Fail bF.score, bF.output⟩).status.score = bF.score := by
    by_cases hp : bF.score.received_full_points
    · rw [if_pos hp]
      rfl
    · rw [if_neg hp]
      rfl
  have hrle : (scores.map Score.received).sum ≤ points := hsum ▸ hsl.1
  have hfull : (bF.score.received_full_points = true) ↔ bF.score.received = points := by
    rw [Score.received_full_points, beq_iff_eq, h3, hsum]
    exact eq_comm
  refine ⟨_, by rw [hto] at hres; exact hres, ?_, ?_, ?_⟩
  · rw [hscore, h2, hsl.2, hsum]
    exact (Nat.sub_sub_self hrle).symm
  · rw [hscore, h3, hsum]
  · by_cases hp : bF.score.received_full_points = true
    · rw [if_pos hp]
      simp only [TestStatus.isPass, TestStatus.score]
      exact ⟨fun _ => hfull.mp hp, fun _ => trivial⟩
    · rw [if_neg hp]
      simp only [TestStatus.isPass, TestStatus.score]
      constructor
      · intro h
        exact absurd h (by simp)
      · intro h
        exact absurd (hfull.mpr h) hp

/-- Witness for C4, instantiating scenario S5's score shape: possibles
2+1+1 = 4 points with received 2, 0, 1: the final score is 3/4 and the
status is Fail. -/
theorem C4_partial_deduction_arithmetic_witness :
    ∃ res,
      TestRs.GenosTest.run 400
          (([⟨200, 200⟩, ⟨0, 100⟩, ⟨100, 100⟩].map TestRs.partialStage).map .ok)
          = .ok (some res)
        ∧ res.status.score.received
            = 400 - ([⟨200, 200⟩, ⟨0, 100⟩, (⟨100, 100⟩ : Score)].map Score.points_lost).sum
        ∧ res.status.score.possible = 400
        ∧ (res.status.isPass = true ↔ res.status.score.received = 400) :=
  C4_partial_deduction_arithmetic 400 [⟨200, 200⟩, ⟨0, 100⟩, ⟨100, 100⟩]
    (by
      intro s hs
      simp only [List.mem_cons, List.not_mem_nil, or_false] at hs
      rcases hs with rfl | rfl | rfl <;> decide)
    (by decide)

end Genos

namespace Genos

/-- Claim C5: ShellExecutor's exit mapping sends success to Ok, an explicit
exit code to Failure(code mod 256), signal 11 to Signal(SegFault), signal 6
to Signal(Abort), and panics (a contract violation) on any other signal;
with a timeout configured, once the deadline elapses the executor returns
Timeout(duration) immediately, for every possible wait status, so the
mapping is never consulted. -/
theorem C5_exit_status_mapping :
    (∀ c : Int, c % 256 = 0 → ExitStatus.fromStd (.exited c) = some .Ok)
      ∧ (∀ c : Int, c % 256 ≠ 0
          → ExitStatus.fromStd (.exited c) = some (.Failure (c % 256)))
      ∧ ExitStatus.fromStd (.signaled 11) = some (.Signal .SegFault)
      ∧ ExitStatus.fromStd (.signaled 6) = some (.Signal .Abort)
      ∧ (∀ s : Int, s ≠ 11 → s ≠ 6 → ExitStatus.fromStd (.signaled s) = none)
      ∧ (∀ (d : Duration) (child : ChildBehavior), d < child.exitTime
          → ShellExecutor.run (some d) child
              = some (ProcessOutput.from_exit_status (.Timeout d))) := by
  refine ⟨?_, ?_, rfl, rfl, ?_, ?_⟩
  · intro c hc
    rw [ExitStatus.fromStd, StdExitStatus.success]
    rw [if_pos (by simpa using hc)]
  · intro c hc
    rw [ExitStatus.fromStd, StdExitStatus.success]
    rw [if_neg (by simpa using hc)]
    rfl
  · intro s h11 h6
    rw [ExitStatus.fromStd, StdExitStatus.success, if_neg (by simp),
      StdExitStatus.code, StdExitStatus.signal]
    simp only
    rw [SignalType.fromCode, if_neg h11, if_neg h6]
    rfl
  · intro d child h
    rw [ShellExecutor.run, if_pos h]

/-- Witness for C5: concrete instances of every branch of the mapping and
of the elapsed-deadline return. -/
theorem C5_exit_status_mapping_witness :
    ExitStatus.fromStd (.exited 512) = some .Ok
      ∧ ExitStatus.fromStd (.exited (-10)) = some (.Failure 246)
      ∧ ExitStatus.fromStd (.signaled 11) = some (.Signal .SegFault)
      ∧ ExitStatus.fromStd (.signaled 6) = some (.Signal .Abort)
      ∧ ExitStatus.fromStd (.signaled 9) = none
      ∧ ShellExecutor.run (some 5) ⟨6, .signaled 9, "out", "err"⟩
          = some (ProcessOutput.from_exit_status (.Timeout 5)) := by
  refine ⟨C5_exit_status_mapping.1 512 (by decide), ?_,
    C5_exit_status_mapping.2.2.1, C5_exit_status_mapping.2.2.2.1,
    C5_exit_status_mapping.2.2.2.2.1 9 (by decide) (by decide),
    C5_exit_status_mapping.2.2.2.2.2 5 ⟨6, .signaled 9, "out", "err"⟩ (by decide)⟩
  have h := C5_exit_status_mapping.2.1 (-10) (by decide)
  rw [h]
  rfl

end Genos

namespace GraderSystems

open Genos

/-- Claim C6: for a valgrind stage whose command ran (log read back
successfully), Ok yields a passing update and Continue with zero points
lost; Failure(rc) with rc ≥ 125 yields a failing "Valgrind Errors
Detected" update and Continue deducting the configured quantity;
Failure(rc) with rc < 125 is a system error; Timeout yields a failing
timed-out update, Continue with the configured deduction, and an output
whose section holds no "Output" (log) subsection. -/
theorem C6_valgrind_exit_mapping (config : ValgrindConfig) (cmd log : String) :
    (Valgrind.run config cmd log .Ok
        = .ok ⟨.Continue PointQuantity.zero,
            some ⟨[⟨"Valgrind",
              [.SubSection "Run Command" [.Block ⟨cmd, true⟩],
                .StatusList [Update.new_pass "running valgrind"],
                .SubSection "Output" [.Block ⟨log, false⟩]]⟩]⟩⟩)
      ∧ (∀ rc : Int, ERROR_EXITCODE ≤ rc →
          Valgrind.run config cmd log (.Failure rc)
            = .ok ⟨.Continue config.points,
                some ⟨[⟨"Valgrind",
                  [.SubSection "Run Command" [.Block ⟨cmd, true⟩],
                    .StatusList [(Update.new_fail "running valgrind" config.points).with_notes
                      (.Block ⟨"Valgrind Errors Detected", false⟩)],
                    .SubSection "Output" [.Block ⟨log, false⟩]]⟩]⟩⟩)
      ∧ (∀ rc : Int, rc < ERROR_EXITCODE →
          ∃ e, Valgrind.run config cmd log (.Failure rc) = .error e)
      ∧ (∀ dur : Duration,
          Valgrind.run config cmd log (.Timeout dur)
            = .ok ⟨.Continue config.points,
                some ⟨[⟨"Valgrind",
                  [.SubSection "Run Command" [.Block ⟨cmd, true⟩],
                    .StatusList [(Update.new_fail "running valgrind" config.points).with_notes
                      (.Block ⟨valgrindTimeoutMsg dur, false⟩)]]⟩]⟩⟩)
      ∧ (∀ (dur : Duration) (c : Content),
          c ∈ [Content.SubSection "Run Command" [Content.Block ⟨cmd, true⟩],
            Content.StatusList [(Update.new_fail "running valgrind" config.points).with_notes
              (.Block ⟨valgrindTimeoutMsg dur, false⟩)]]
          → isOutputSubSection c = false) := by
  refine ⟨rfl, ?_, ?_, fun dur => rfl, ?_⟩
  · intro rc h
    rw [Valgrind.run]
    simp only
    rw [if_neg (not_lt.mpr h)]
  · intro rc h
    refine ⟨1, ?_⟩
    rw [Valgrind.run]
    simp only
    rw [if_pos h]
  · intro dur c hc
    simp only [List.mem_cons, List.not_mem_nil, or_false] at hc
    rcases hc with rfl | rfl
    · rfl
    · rfl

/-- Witness for C6: the four branches at a concrete configuration, command
line, log text, and exit statuses 0 / 125 / 124 / a 120-second timeout. -/
theorem C6_valgrind_exit_mapping_witness :
    (Valgrind.run ⟨.Partial 4200, none⟩ "valgrind -- a.out" "log text" .Ok
        = .ok ⟨.Continue PointQuantity.zero,
            some ⟨[⟨"Valgrind",
              [.SubSection "Run Command" [.Block ⟨"valgrind -- a.out", true⟩],
                .StatusList [Update.new_pass "running valgrind"],
                .SubSection "Output" [.Block ⟨"log text", false⟩]]⟩]⟩⟩)
      ∧ Valgrind.run ⟨.Partial 4200, none⟩ "valgrind -- a.out" "log text" (.Failure 125)
          = .ok ⟨.Continue (.Partial 4200),
              some ⟨[⟨"Valgrind",
                [.SubSection "Run Command" [.Block ⟨"valgrind -- a.out", true⟩],
                  .StatusList [(Update.new_fail "running valgrind" (.Partial 4200)).with_notes
                    (.Block ⟨"Valgrind Errors Detected", false⟩)],
                  .SubSection "Output" [.Block ⟨"log text", false⟩]]⟩]⟩⟩
      ∧ (∃ e, Valgrind.run ⟨.Partial 4200, none⟩ "valgrind -- a.out" "log text" (.Failure 124)
          = .error e)
      ∧ Valgrind.run ⟨.Partial 4200, none⟩ "valgrind -- a.out" "log text" (.Timeout 120)
          = .ok ⟨.Continue (.Partial 4200),
              some ⟨[⟨"Valgrind",
                [.SubSection "Run Command" [.Block ⟨"valgrind -- a.out", true⟩],
                  .StatusList [(Update.new_fail "running valgrind" (.Partial 4200)).with_notes
                    (.Block ⟨valgrindTimeoutMsg 120, false⟩)]]⟩]⟩⟩ := by
  have h := C6_valgrind_exit_mapping ⟨.Partial 4200, none⟩ "valgrind -- a.out" "log text"
  exact ⟨h.1, h.2.1 125 (by decide), h.2.2.1 124 (by decide), h.2.2.2.1 120⟩

end GraderSystems

namespace Genos

theorem pq_zero_add (q : PointQuantity) : PointQuantity.zero.add q = q := by
  cases q with
  | FullPoints => rfl
  | Partial p =>
    rw [PointQuantity.zero, PointQuantity.add, Nat.zero_add]

end Genos

namespace GraderSystems

open Genos

/-- Counterexample to claim C7 as stated: with return-code config
{expected: 0, points: Partial(1.00)} and an actual exit code 1, the failing
"Checking return code" update carries PointQuantity::FullPoints — not the
configured quantity — even though the stage's Continue carries the
configured Partial(1.00). -/
theorem C7_counterexample :
    Run.run (some ⟨0, .Partial 100⟩) true "./exec" ⟨.Failure 1, "", ""⟩
        = .ok ⟨.Continue (.Partial (0 + 100)),
            some ⟨[⟨"Run Program",
              [.SubSection "run command" [.Block ⟨"./exec", true⟩],
                .StatusList [Update.new_pass "Running program",
                  (Update.new_fail "Checking return code" .FullPoints).with_notes
                    (.Block ⟨"Expected 0, but found 1", false⟩)]]⟩]⟩⟩
      ∧ (PointQuantity.FullPoints ≠ .Partial 100) :=
  ⟨rfl, by decide⟩

/-- Claim C7 as amended: on a return-code mismatch the failing update
carries PointQuantity::FullPoints (hard-coded), while the stage returns
Continue with accumulated points_lost equal to the configured quantity; on
a match it emits a passing update and returns Continue with zero points
lost. -/
theorem C7_return_code_check (rc_points : PointQuantity) (expected : Int)
    (cmd : String) (st : ExitStatus) (out err : String) (hc : st.completed = true) :
    (st.exit_code.getD 0 ≠ expected →
      Run.run (some ⟨expected, rc_points⟩) true cmd ⟨st, out, err⟩
        = .ok ⟨.Continue rc_points,
            some ⟨[⟨"Run Program",
              [.SubSection "run command" [.Block ⟨cmd, true⟩],
                .StatusList [Update.new_pass "Running program",
                  (Update.new_fail "Checking return code" .FullPoints).with_notes
                    (.Block ⟨"Expected " ++ toString expected ++ ", but found "
                      ++ toString (st.exit_code.getD 0), false⟩)]]⟩]⟩⟩)
      ∧ (st.exit_code.getD 0 = expected →
      Run.run (some ⟨expected, rc_points⟩) true cmd ⟨st, out, err⟩
        = .ok ⟨.Continue PointQuantity.zero,
            some ⟨[⟨"Run Program",
              [.SubSection "run command" [.Block ⟨cmd, true⟩],
                .StatusList [Update.new_pass "Running program",
                  Update.new_pass "Checking return code"]]⟩]⟩⟩) := by
  constructor
  · intro hne
    simp only [Run.run, hc, Bool.not_true, Bool.not_false, Bool.false_eq_true, if_false]
    rw [if_pos hne, pq_zero_add]
    rfl
  · intro heq
    simp only [Run.run, hc, Bool.not_true, Bool.not_false, Bool.false_eq_true, if_false]
    rw [if_neg (by simp [heq])]
    rfl

/-- Witness for the amended C7: mismatch (exit 1 against expected 0) and
match (exit 0 against expected 0) at a Partial(1.00) configuration. -/
theorem C7_return_code_check_witness :
    Run.run (some ⟨0, .Partial 100⟩) true "./exec" ⟨.Failure 1, "", ""⟩
        = .ok ⟨.Continue (.Partial 100),
            some ⟨[⟨"Run Program",
              [.SubSection "run command" [.Block ⟨"./exec", true⟩],
                .StatusList [Update.new_pass "Running program",
                  (Update.new_fail "Checking return code" .FullPoints).with_notes
                    (.Block ⟨"Expected 0, but found 1", false⟩)]]⟩]⟩⟩
      ∧ Run.run (some ⟨0, .Partial 100⟩) true "./exec" ⟨.Ok, "", ""⟩
          = .ok ⟨.Continue PointQuantity.zero,
              some ⟨[⟨"Run Program",
                [.SubSection "run command" [.Block ⟨"./exec", true⟩],
                  .StatusList [Update.new_pass "Running program",
                    Update.new_pass "Checking return code"]]⟩]⟩⟩ := by
  constructor
  · have h := (C7_return_code_check (.Partial 100) 0 "./exec" (.Failure 1) "" "" rfl).1
      (by decide)
    simpa using h
  · exact (C7_return_code_check (.Partial 100) 0 "./exec" .Ok "" "" rfl).2 (by decide)

end GraderSystems

namespace Genos

theorem foldl_max_le_init (l : List Update) (acc : Nat) :
    acc ≤ l.foldl (fun a u => max a u.description.length) acc := by
  induction l generalizing acc with
  | nil => exact Nat.le_refl acc
  | cons x rest ih =>
    exact Nat.le_trans (Nat.le_max_left acc x.description.length) (ih _)

theorem foldl_max_mem (l : List Update) (u : Update) (hu : u ∈ l) :
    ∀ acc : Nat, u.description.length ≤ l.foldl (fun a u => max a u.description.length) acc := by
  induction l with
  | nil => cases hu
  | cons x rest ih =>
    intro acc
    rcases List.mem_cons.mp hu with rfl | hmem
    · exact Nat.le_trans (Nat.le_max_right acc u.description.length)
        (foldl_max_le_init rest _)
    · exact ih hmem _

theorem le_maxDescLen (updates : List Update) (u : Update) (hu : u ∈ updates) :
    u.description.length ≤ maxDescLen updates :=
  foldl_max_mem updates u hu 0

theorem summaryLine_data (M : Nat) (u : Update) :
    (summaryLine M u).data
      = u.description.data ++ ' ' ::
          (List.replicate (4 + M - u.description.length) '.'
            ++ ' ' :: (statusTail u).data) := by
  obtain ⟨d, st, notes⟩ := u
  have hsp : (" " : String).data = [' '] := rfl
  cases st with
  | Pass =>
    show (d ++ " " ++ dotsRun (4 + M - d.length) ++ " " ++ Status.toDisplay .Pass).data = _
    show d.data ++ (" " : String).data ++ (dotsRun (4 + M - d.length)).data
        ++ (" " : String).data ++ (Status.toDisplay .Pass).data = _
    rw [hsp]
    simp [dotsRun, statusTail, Update.status, Update.description, Status.toDisplay]
  | Fail pl =>
    show (d ++ " " ++ dotsRun (4 + M - d.length) ++ " " ++ Status.toDisplay (.Fail pl)
        ++ " (-" ++ pl.toDisplay ++ ")").data = _
    show d.data ++ (" " : String).data ++ (dotsRun (4 + M - d.length)).data
        ++ (" " : String).data ++ (Status.toDisplay (.Fail pl)).data
        ++ (" (-" : String).data ++ pl.toDisplay.data ++ (")" : String).data = _
    rw [hsp]
    simp only [statusTail, Update.status, Update.description, Status.toDisplay, dotsRun]
    show _ = d.data ++ ' ' :: (List.replicate (4 + M - d.length) '.'
      ++ ' ' :: (("fail" : String).data ++ (" (-" : String).data
        ++ pl.toDisplay.data ++ (")" : String).data))
    simp [List.append_assoc]

/-- Counterexample to claim C8 as stated: in the list with descriptions
"ab" and "a" the maximum length M is 2, and the status text of the line for
"ab" does not begin at column M + 5 = 7 (that column holds the separating
space; the status begins at M + 6). -/
theorem C8_counterexample :
    ¬ ((summaryLine (maxDescLen [Update.new_pass "ab", Update.new_pass "a"])
          (Update.new_pass "ab")).data.drop
        (maxDescLen [Update.new_pass "ab", Update.new_pass "a"] + 5)
      = (statusTail (Update.new_pass "ab")).data) := by
  decide

/-- Claim C8 as amended: every rendered status line is the description, a
space, 4 + M − len(description) dots, a space, and the status text — so the
status text of every line begins at the same column index, M + 6 (0-based),
not M + 5. -/
theorem C8_status_alignment (updates : List Update) (u : Update) (hu : u ∈ updates) :
    (summaryLine (maxDescLen updates) u).data
        = u.description.data ++ ' ' ::
            (List.replicate (4 + maxDescLen updates - u.description.length) '.'
              ++ ' ' :: (statusTail u).data)
      ∧ (summaryLine (maxDescLen updates) u).data.drop (maxDescLen updates + 6)
        = (statusTail u).data := by
  have hdata := summaryLine_data (maxDescLen updates) u
  refine ⟨hdata, ?_⟩
  rw [hdata]
  have hle := le_maxDescLen updates u hu
  have hdlen : u.description.data.length = u.description.length := rfl
  rw [show u.description.data ++ ' ' ::
      (List.replicate (4 + maxDescLen updates - u.description.length) '.'
        ++ ' ' :: (statusTail u).data)
    = (u.description.data ++ ' ' ::
        List.replicate (4 + maxDescLen updates - u.description.length) '.' ++ [' '])
      ++ (statusTail u).data by simp]
  rw [show maxDescLen updates + 6
      = (u.description.data ++ ' ' ::
          List.replicate (4 + maxDescLen updates - u.description.length) '.'
            ++ [' ']).length by
    simp only [List.length_append, List.length_cons, List.length_replicate,
      List.length_nil]
    omega]
  exact List.drop_left _ _

/-- Witness for the amended C8: in the two-line list the "ab" line is
"ab .... pass" and its status text sits at index M + 6 = 8. -/
theorem C8_status_alignment_witness :
    (summaryLine (maxDescLen [Update.new_pass "ab", Update.new_pass "a"])
          (Update.new_pass "ab")).data
        = (Update.new_pass "ab").description.data ++ ' ' ::
            (List.replicate (4 + maxDescLen [Update.new_pass "ab", Update.new_pass "a"]
                - (Update.new_pass "ab").description.length) '.'
              ++ ' ' :: (statusTail (Update.new_pass "ab")).data)
      ∧ (summaryLine (maxDescLen [Update.new_pass "ab", Update.new_pass "a"])
            (Update.new_pass "ab")).data.drop
          (maxDescLen [Update.new_pass "ab", Update.new_pass "a"] + 6)
        = (statusTail (Update.new_pass "ab")).data :=
  C8_status_alignment [Update.new_pass "ab", Update.new_pass "a"] (Update.new_pass "ab")
    (List.mem_cons_self _ _)

end Genos

namespace Genos

theorem splitLines_ne_nil (s : List Char) : splitLines s ≠ [] := by
  induction s with
  | nil =>
    intro h
    cases h
  | cons c rest ih =>
    rw [splitLines]
    by_cases hc : c = '\n'
    · rw [if_pos hc]
      intro h
      cases h
    · rw [if_neg hc]
      cases hsplit : splitLines rest with
      | nil => intro h; cases h
      | cons l ls => intro h; cases h

theorem splitLines_append (p : List Char) (hp : ∀ c ∈ p, c ≠ '\n') (s : List Char) :
    ∃ h t, splitLines s = h :: t ∧ splitLines (p ++ s) = (p ++ h) :: t := by
  induction p with
  | nil =>
    cases hsplit : splitLines s with
    | nil => exact absurd hsplit (splitLines_ne_nil s)
    | cons l ls => exact ⟨l, ls, rfl, by rw [List.nil_append, hsplit, List.nil_append]⟩
  | cons c rest ih =>
    obtain ⟨h, t, hs, hps⟩ := ih (fun x hx => hp x (List.mem_cons_of_mem _ hx))
    refine ⟨h, t, hs, ?_⟩
    rw [List.cons_append, splitLines, if_neg (hp c (List.mem_cons_self c rest)), hps]
    rfl

theorem dropWhile_digit_append (D : List Char) (h : ∀ c ∈ D, c.isDigit = true)
    (xs : List Char) :
    (D ++ xs).dropWhile Char.isDigit = xs.dropWhile Char.isDigit := by
  induction D with
  | nil => rfl
  | cons c rest ih =>
    rw [List.cons_append, List.dropWhile_cons,
      if_pos (h c (List.mem_cons_self c rest)),
      ih (fun x hx => h x (List.mem_cons_of_mem _ hx))]

theorem takeWhile_digit_append (D : List Char) (h : ∀ c ∈ D, c.isDigit = true)
    (xs : List Char) :
    (D ++ xs).takeWhile Char.isDigit = D ++ xs.takeWhile Char.isDigit := by
  induction D with
  | nil => rfl
  | cons c rest ih =>
    rw [List.cons_append, List.takeWhile_cons,
      if_pos (h c (List.mem_cons_self c rest)),
      ih (fun x hx => h x (List.mem_cons_of_mem _ hx)), List.cons_append]

theorem digitChar_isDigit (n : Nat) (h : n < 10) : (digitChar n).isDigit = true := by
  interval_cases n <;> decide

theorem natDigitsGo_digits (fuel : Nat) :
    ∀ n c, c ∈ natDigitsGo fuel n → c.isDigit = true := by
  induction fuel with
  | zero =>
    intro n c hc
    cases hc
  | succ fuel ih =>
    intro n c hc
    rw [natDigitsGo] at hc
    by_cases hn : n < 10
    · rw [if_pos hn] at hc
      rw [List.mem_singleton] at hc
      rw [hc]
      exact digitChar_isDigit n hn
    · rw [if_neg hn] at hc
      rcases List.mem_append.mp hc with h | h
      · exact ih (n / 10) c h
      · rw [List.mem_singleton] at h
        rw [h]
        exact digitChar_isDigit (n % 10) (Nat.mod_lt n (by decide))

theorem natDigitsGo_ne_nil (fuel n : Nat) : natDigitsGo (fuel + 1) n ≠ [] := by
  rw [natDigitsGo]
  by_cases hn : n < 10
  · rw [if_pos hn]
    intro h
    cases h
  · rw [if_neg hn]
    intro h
    cases List.append_eq_nil.mp h with
    | intro h1 h2 => cases h2

theorem lineNumberStr_eq (n : Nat) :
    lineNumberStr n = lineNumDigits n ++ ['|', ' '] := rfl

theorem lineNumDigits_digits (n : Nat) : ∀ c ∈ lineNumDigits n, c.isDigit = true := by
  intro c hc
  rw [lineNumDigits] at hc
  by_cases hn : n < 10
  · rw [if_pos hn] at hc
    rcases List.mem_cons.mp hc with rfl | h
    · decide
    · exact natDigitsGo_digits (n + 1) n c h
  · rw [if_neg hn] at hc
    exact natDigitsGo_digits (n + 1) n c hc

theorem lineNumDigits_ne_nil (n : Nat) : lineNumDigits n ≠ [] := by
  rw [lineNumDigits]
  by_cases hn : n < 10
  · rw [if_pos hn]
    intro h
    cases h
  · rw [if_neg hn]
    exact natDigitsGo_ne_nil n n

theorem dropLineNum_lineNumberStr (n : Nat) (l : List Char) :
    dropLineNum (lineNumberStr n ++ l) = l := by
  rw [dropLineNum, lineNumberStr_eq]
  rw [show lineNumDigits n ++ ['|', ' '] ++ l = lineNumDigits n ++ ('|' :: ' ' :: l) by simp]
  rw [dropWhile_digit_append (lineNumDigits n) (lineNumDigits_digits n),
    takeWhile_digit_append (lineNumDigits n) (lineNumDigits_digits n)]
  rw [show ('|' :: ' ' :: l).dropWhile Char.isDigit = '|' :: ' ' :: l by
    rw [List.dropWhile_cons, if_neg (by decide)]]
  rw [show ('|' :: ' ' :: l).takeWhile Char.isDigit = [] by
    rw [List.takeWhile_cons, if_neg (by decide)]]
  rw [List.append_nil]
  rw [if_pos ⟨lineNumDigits_ne_nil n, rfl⟩]
  rfl

theorem isDigit_ne_newline (c : Char) (h : c.isDigit = true) : c ≠ '\n' := by
  intro hc
  rw [hc] at h
  exact absurd h (by decide)

theorem lineNumberStr_no_newline (n : Nat) : ∀ c ∈ lineNumberStr n, c ≠ '\n' := by
  intro c hc
  rw [lineNumberStr_eq] at hc
  rcases List.mem_append.mp hc with h | h
  · exact isDigit_ne_newline c (lineNumDigits_digits n c h)
  · rcases List.mem_cons.mp h with rfl | h
    · decide
    · rw [List.mem_singleton] at h
      rw [h]
      decide

theorem joinLines_cons_ne_nil (l : List Char) (ls : List (List Char)) (h : ls ≠ []) :
    joinLines (l :: ls) = l ++ '\n' :: joinLines ls := by
  cases ls with
  | nil => exact absurd rfl h
  | cons m ms => rfl

theorem joinLines_cons_cons (c : Char) (h : List Char) (M : List (List Char)) :
    joinLines ((c :: h) :: M) = c :: joinLines (h :: M) := by
  cases M with
  | nil => rfl
  | cons m ms => rfl

end Genos

namespace Genos

theorem char_ofNat_toNat (b : Nat) (h : b.isValidChar) : (Char.ofNat b).toNat = b := by
  rw [Char.ofNat, dif_pos h]
  rfl

theorem char_ofNat_ne_newline (b : Nat) (h1 : 32 ≤ b) (h2 : b ≤ 126) :
    Char.ofNat b ≠ '\n' := by
  intro hc
  have hv : b.isValidChar := Or.inl (by omega)
  have ht := char_ofNat_toNat b hv
  rw [hc] at ht
  have h10 : ('\n').toNat = 10 := rfl
  rw [h10] at ht
  omega

theorem transform_byte_printable (b : Nat) (h1 : 32 ≤ b) (h2 : b ≤ 126) :
    transform_byte b = [Char.ofNat b] := by
  rw [transform_byte, if_neg (by omega), if_neg (by omega), if_neg (by omega),
    if_neg (by omega), if_neg (by omega), if_neg (by omega), if_pos (by simp [h1, h2])]

theorem splitLines_no_newline (p : List Char) (hp : ∀ c ∈ p, c ≠ '\n') :
    splitLines p = [p] := by
  obtain ⟨h, t, hs, hps⟩ := splitLines_append p hp []
  rw [show splitLines ([] : List Char) = [[]] from rfl] at hs
  injection hs with h1 h2
  rw [List.append_nil] at hps
  rw [hps, ← h1, ← h2, List.append_nil]

theorem strip_transform (bytes : List Nat)
    (hdom : ∀ b ∈ bytes, (32 ≤ b ∧ b ≤ 126) ∨ b = 10) :
    ∀ ln : Nat,
      joinLines ((splitLines (lineNumberStr ln ++ transformGo bytes ln)).map dropLineNum)
        = escapeBytes bytes := by
  induction bytes with
  | nil =>
    intro ln
    rw [transformGo, List.append_nil,
      splitLines_no_newline _ (lineNumberStr_no_newline ln), List.map_cons, List.map_nil]
    have hd := dropLineNum_lineNumberStr ln []
    rw [List.append_nil] at hd
    rw [hd]
    rfl
  | cons b rest ih =>
    have hdomrest : ∀ x ∈ rest, (32 ≤ x ∧ x ≤ 126) ∨ x = 10 :=
      fun x hx => hdom x (List.mem_cons_of_mem _ hx)
    intro ln
    rcases hdom b (List.mem_cons_self b rest) with ⟨h1, h2⟩ | rfl
    · have hb10 : b ≠ 10 := by omega
      rw [transformGo, if_neg hb10, transform_byte_printable b h1 h2]
      obtain ⟨h, t, hs, hps⟩ := splitLines_append (lineNumberStr ln ++ [Char.ofNat b])
        (by
          intro c hc
          rcases List.mem_append.mp hc with hm | hm
          · exact lineNumberStr_no_newline ln c hm
          · rw [List.mem_singleton] at hm
            rw [hm]
            exact char_ofNat_ne_newline b h1 h2)
        (transformGo rest ln)
      obtain ⟨h', t', hs', hps'⟩ := splitLines_append (lineNumberStr ln)
        (lineNumberStr_no_newline ln) (transformGo rest ln)
      rw [hs] at hs'
      injection hs' with hh ht
      subst hh
      subst ht
      rw [show lineNumberStr ln ++ ([Char.ofNat b] ++ transformGo rest ln)
        = (lineNumberStr ln ++ [Char.ofNat b]) ++ transformGo rest ln by simp, hps]
      have hIH := ih hdomrest ln
      rw [hps', List.map_cons, dropLineNum_lineNumberStr ln h] at hIH
      have hd1 : dropLineNum ((lineNumberStr ln ++ [Char.ofNat b]) ++ h)
          = Char.ofNat b :: h := by
        rw [show (lineNumberStr ln ++ [Char.ofNat b]) ++ h
          = lineNumberStr ln ++ (Char.ofNat b :: h) by simp]
        exact dropLineNum_lineNumberStr ln _
      rw [List.map_cons, hd1, joinLines_cons_cons, hIH, escapeBytes, escapeByte,
        if_neg hb10]
      rfl
    · rw [transformGo, if_pos rfl,
        show transform_byte 10 = ['\\', 'n', '\n'] from rfl]
      rw [show lineNumberStr ln ++ (['\\', 'n', '\n']
          ++ (lineNumberStr (ln + 1) ++ transformGo rest (ln + 1)))
        = (lineNumberStr ln ++ ['\\', 'n'])
          ++ ('\n' :: (lineNumberStr (ln + 1) ++ transformGo rest (ln + 1))) by simp]
      obtain ⟨h, t, hs, hps⟩ := splitLines_append (lineNumberStr ln ++ ['\\', 'n'])
        (by
          intro c hc
          rcases List.mem_append.mp hc with hm | hm
          · exact lineNumberStr_no_newline ln c hm
          · rcases List.mem_cons.mp hm with rfl | hm
            · decide
            · rw [List.mem_singleton] at hm
              rw [hm]
              decide)
        ('\n' :: (lineNumberStr (ln + 1) ++ transformGo rest (ln + 1)))
      rw [show splitLines ('\n' :: (lineNumberStr (ln + 1) ++ transformGo rest (ln + 1)))
        = [] :: splitLines (lineNumberStr (ln + 1) ++ transformGo rest (ln + 1)) by
          rw [splitLines, if_pos rfl]] at hs
      injection hs with hh ht
      subst hh
      subst ht
      rw [hps, List.append_nil, List.map_cons,
        dropLineNum_lineNumberStr ln ['\\', 'n']]
      have hne : (splitLines (lineNumberStr (ln + 1)
          ++ transformGo rest (ln + 1))).map dropLineNum ≠ [] := by
        intro hx
        exact splitLines_ne_nil _ (List.map_eq_nil_iff.mp hx)
      rw [joinLines_cons_ne_nil _ _ hne, ih hdomrest (ln + 1), escapeBytes, escapeByte,
        if_pos rfl]
      rfl

theorem escapeBytes_no_lf (bytes : List Nat) (hno : ∀ b ∈ bytes, b ≠ 10) :
    escapeBytes bytes = bytes.map (fun b => Char.ofNat b) := by
  induction bytes with
  | nil => rfl
  | cons b rest ih =>
    rw [escapeBytes, escapeByte, if_neg (hno b (List.mem_cons_self b rest)),
      ih (fun x hx => hno x (List.mem_cons_of_mem _ hx)), List.map_cons]
    rfl

/-- Counterexample to claim C9 as stated: for the input "a\nb" (bytes 97,
10, 98), the transform followed by stripping the NN| prefixes yields
"a\\n\nb" — a literal backslash-n escape remains before the newline — not
the original bytes. -/
theorem C9_counterexample :
    stripLineNums (load_transformed_content [97, 10, 98]) = ['a', '\\', 'n', '\n', 'b']
      ∧ ¬ (stripLineNums (load_transformed_content [97, 10, 98])
          = [97, 10, 98].map (fun b => Char.ofNat b)) := by
  exact ⟨by decide, by decide⟩

/-- Claim C9 as amended: for every byte sequence of printables
(0x20..=0x7E) and LF, the transform followed by stripping the NN|
line-number prefixes yields the original byte sequence with a literal
two-character backslash-n escape inserted before each LF; when the input
contains no LF the round trip is exact. -/
theorem C9_strip_round_trip (bytes : List Nat)
    (hdom : ∀ b ∈ bytes, (32 ≤ b ∧ b ≤ 126) ∨ b = 10) :
    stripLineNums (load_transformed_content bytes) = escapeBytes bytes
      ∧ ((∀ b ∈ bytes, b ≠ 10)
          → stripLineNums (load_transformed_content bytes)
            = bytes.map (fun b => Char.ofNat b)) := by
  have h1 : stripLineNums (load_transformed_content bytes) = escapeBytes bytes := by
    rw [stripLineNums, load_transformed_content]
    exact strip_transform bytes hdom 1
  refine ⟨h1, fun hno => ?_⟩
  rw [h1]
  exact escapeBytes_no_lf bytes hno

/-- Witness for the amended C9: "h\ni" keeps its escape (and line numbers
strip away), while "hi" round-trips exactly. -/
theorem C9_strip_round_trip_witness :
    stripLineNums (load_transformed_content [104, 10, 105]) = escapeBytes [104, 10, 105]
      ∧ stripLineNums (load_transformed_content [104, 105])
        = [104, 105].map (fun b => Char.ofNat b) := by
  constructor
  · exact (C9_strip_round_trip [104, 10, 105] (by decide)).1
  · exact (C9_strip_round_trip [104, 105] (by decide)).2 (by decide)

end Genos

namespace GraderSystems

open Genos

/-- Claim C10: a TestConfig with no points-bearing sub-items (no
run.return_code and compare_files absent or empty) has an empty
configured-points list, which passes the uniformity check (it can never be
MixedPointQuantities) and is treated as all-Partial with sum zero, so
validation — and hence the deserialization wrapper — succeeds exactly when
description.total_points is 0. -/
theorem C10_empty_points_validation (c : TestConfig)
    (hrc : c.run.return_code = none)
    (hcf : c.compare_files = none
      ∨ ∃ cc, c.compare_files = some cc ∧ cc.compares = []) :
    (c.validate = .ok () ↔ c.description.total_points = 0)
      ∧ c.validate ≠ .error .MixedPointQuantities
      ∧ (c.deserialize = .ok c ↔ c.description.total_points = 0) := by
  have hlist : (match c.compare_files with
      | some compare_config => compare_config.compares.map (fun compare => compare.points)
      | none => ([] : List PointQuantity)) = [] := by
    rcases hcf with h | ⟨cc, hsome, hnil⟩
    · rw [h]
    · rw [hsome]
      show cc.compares.map (fun compare => compare.points) = []
      rw [hnil]
      rfl
  have hval : c.validate
      = if (0 : Points) ≠ c.description.total_points
        then .error (.InvalidPointTotal c.description.total_points 0)
        else .ok () := by
    rw [TestConfig.validate, hrc]
    simp only [List.nil_append, hlist]
    rfl
  constructor
  · rw [hval]
    by_cases h0 : (0 : Points) ≠ c.description.total_points
    · rw [if_pos h0]
      constructor
      · intro h
        cases h
      · intro h
        exact absurd h.symm h0
    · rw [if_neg h0]
      rw [Ne, not_not] at h0
      exact ⟨fun _ => h0.symm, fun _ => rfl⟩
  constructor
  · rw [hval]
    by_cases h0 : (0 : Points) ≠ c.description.total_points
    · rw [if_pos h0]
      intro h
      cases h
    · rw [if_neg h0]
      intro h
      cases h
  · rw [TestConfig.deserialize, hval]
    by_cases h0 : (0 : Points) ≠ c.description.total_points
    · rw [if_pos h0]
      constructor
      · intro h
        cases h
      · intro h
        exact absurd h.symm h0
    · rw [if_neg h0]
      rw [Ne, not_not] at h0
      exact ⟨fun _ => h0.symm, fun _ => rfl⟩

/-- Witness for C10: a config with no return-code check and no compares
validates and deserializes iff total_points is 0 — instantiated at a
zero-point config (succeeds) and checked at a 4-point one (fails). -/
theorem C10_empty_points_validation_witness :
    (TestConfig.validate
        ⟨⟨"t", "t", 1, 0, .Hidden, none⟩, .Diff, ⟨none⟩,
          ⟨[], "exec", none, none, none, none, none, none⟩, none, none, none⟩
      = .ok ())
      ∧ (TestConfig.validate
          ⟨⟨"t", "t", 1, 400, .Hidden, none⟩, .Diff, ⟨none⟩,
            ⟨[], "exec", none, none, none, none, none, none⟩, none, none, none⟩
        ≠ .ok ()) := by
  constructor
  · exact (C10_empty_points_validation
      ⟨⟨"t", "t", 1, 0, .Hidden, none⟩, .Diff, ⟨none⟩,
        ⟨[], "exec", none, none, none, none, none, none⟩, none, none, none⟩
      rfl (Or.inl rfl)).1.mpr rfl
  · intro h
    have := (C10_empty_points_validation
      ⟨⟨"t", "t", 1, 400, .Hidden, none⟩, .Diff, ⟨none⟩,
        ⟨[], "exec", none, none, none, none, none, none⟩, none, none, none⟩
      rfl (Or.inl rfl)).1.mp h
    cases this

end GraderSystems
